import Mathlib

/-!
Verification of the transportation-LP model builder and sensitivity
interpreter of `src/main.py` (network_flows_optimization_python_pulp).

The Python program loads tabular data, builds a PuLP `LpProblem`
(decision variables, objective, three constraint families), solves it,
prints the result tables, and interprets the sensitivity information
(shadow prices of binding constraints, reduced costs of zero-valued
variables).  Everything below is a shallow embedding of that code:
dictionaries become association lists, the PuLP model becomes an
explicit record of variables, objective terms and named constraints,
and the two `print_conclusions_*` functions become pure functions
returning structured statements.
-/

namespace NetworkFlows

/-- A lane is an ordered (source, customer) pair. -/
abbrev Lane := String × String

/-- The input document (section 6 of the design): lists of location
codes and the sparse tables.  Python dictionaries are modelled as
association lists; JSON objects and dict comprehensions both make the
last binding of a key win, which `dictLookup` reproduces. -/
structure InputData where
  sSources : List String
  sCustomers : List String
  pSourceProduction : List (String × Rat)
  pCustomerDemand : List (String × Rat)
  pTransportationCosts : List (Lane × Rat)
  pFixedTransportation : List (Lane × Rat)
  deriving DecidableEq

/-- Python dict lookup `m[k]`: the most recent binding of `k` wins,
`none` models a raised `KeyError`. -/
def dictLookup {α : Type} [DecidableEq α] (m : List (α × Rat)) (k : α) : Option Rat :=
  (m.reverse.find? (fun e => e.1 = k)).map (·.2)

/-- `sSources_Customers` in `main.py`: the list of available
(source, customer) combinations, read off the cost table. -/
def sSources_Customers (d : InputData) : List Lane :=
  d.pTransportationCosts.map (·.1)

/-- The iteration order of the nested loops
`for s in sSources: for c in sCustomers:`. -/
def pairsLoop (d : InputData) : List Lane :=
  d.sSources.flatMap (fun s => d.sCustomers.map (fun c => (s, c)))

/-- Comparison sense of an LP constraint. -/
inductive Sense where
  | le
  | ge
  | eq
  deriving DecidableEq

/-- A named LP constraint: a sum of decision variables (each with
coefficient one, as produced by the `lpSum` calls in `main.py`)
compared against a right-hand side. -/
structure LpConstraint where
  name : String
  vars : List Lane
  sense : Sense
  rhs : Rat
  deriving DecidableEq

/-- PuLP variable category (only `Continuous` is used here). -/
inductive VarCat where
  | continuous
  | integer
  deriving DecidableEq

/-- The single quote character, used by Python `str` on tuples of
strings and expected by the name-parsing regular expression. -/
def quoteChar : Char := Char.ofNat 39

/-- PuLP replaces each character of `"-+[] ->/"` occurring in an
element name by an underscore (`LpElement.setName`). -/
def illegalChars : List Char := ['-', '+', '[', ']', ' ', '>', '/']

/-- One application of PuLP's name-character translation. -/
def sanitizeChar (ch : Char) : Char :=
  if ch ∈ illegalChars then '_' else ch

/-- PuLP's element-name translation, applied character by character. -/
def sanitizeName (s : String) : String :=
  String.mk (s.data.map sanitizeChar)

/-- Python `repr` escaping of one character inside a string literal
delimited by `delim`: the backslash and the delimiter are
backslash-escaped, tab, newline and carriage return use their
two-character escapes, the remaining control characters and the
delete character use a hexadecimal escape, and other characters
stand for themselves. -/
def pyReprChar (delim ch : Char) : List Char :=
  if ch = '\\' then [ '\\', '\\' ]
  else if ch = delim then [ '\\', delim]
  else if ch = '\t' then [ '\\', 't']
  else if ch = '\n' then [ '\\', 'n']
  else if ch = '\r' then [ '\\', 'r']
  else if ch.toNat < 32 ∨ ch.toNat = 127 then
    [ '\\', 'x', Nat.digitChar (ch.toNat / 16), Nat.digitChar (ch.toNat % 16)]
  else [ch]

/-- Python `repr` of a string: single-quoted, unless the string
contains a single quote and no double quote, in which case it is
double-quoted. -/
def pyReprStr (s : String) : String :=
  if quoteChar ∈ s.data ∧ '"' ∉ s.data then
    String.mk ( '"' :: s.data.flatMap (pyReprChar '"') ++ [ '"' ])
  else
    String.mk (quoteChar :: s.data.flatMap (pyReprChar quoteChar) ++ [quoteChar])

/-- Python `str` of a pair of strings: the parenthesized, comma-space
separated `repr`s of the components. -/
def pyStrOfPair (s c : String) : String :=
  "(" ++ pyReprStr s ++ ", " ++ pyReprStr c ++ ")"

/-- The name PuLP gives the decision variable of lane `(s, c)`:
`LpVariable.dicts("quantity_in_tons", ...)` formats the dict key into
the name and then sanitizes it. -/
def varName (s c : String) : String :=
  sanitizeName ("quantity_in_tons_" ++ pyStrOfPair s c)

/-- A decision variable as created by `LpVariable.dicts`. -/
structure LpVar where
  key : Lane
  name : String
  lowBound : Option Rat
  upBound : Option Rat
  cat : VarCat
  deriving DecidableEq

/-- Objective sense of the LP. -/
inductive ObjSense where
  | minimize
  | maximize
  deriving DecidableEq

/-- The built LP model: sense, decision variables, objective terms
(coefficient, variable key) and the named constraints in insertion
order. -/
structure LpModel where
  sense : ObjSense
  vars : List LpVar
  objective : List (Rat × Lane)
  constraints : List LpConstraint
  deriving DecidableEq

/-- The objective loop of `main.py`: one term
`pTransportationCosts[s, c] * vQuantityExchanged[s, c]` per admitted
pair; a missing cost key would be a `KeyError` (`none`). -/
def buildObjective (costs : List (Lane × Rat)) : List Lane → Option (List (Rat × Lane))
  | [] => some []
  | p :: rest =>
    match dictLookup costs p with
    | none => none
    | some cost =>
      match buildObjective costs rest with
      | none => none
      | some l => some ((cost, p) :: l)

/-- Constraint family 1 of `main.py`: for each source `s`, the sum of
`vQuantityExchanged[s, c]` over customers `c` with `(s, c)` an
admitted pair must not exceed `pSourceProduction[s]`. -/
def buildProductionConstraints (prod : List (String × Rat)) (customers : List String)
    (lanes : List Lane) : List String → Option (List LpConstraint)
  | [] => some []
  | s :: rest =>
    match dictLookup prod s with
    | none => none
    | some cap =>
      match buildProductionConstraints prod customers lanes rest with
      | none => none
      | some l =>
        some
          ({ name := sanitizeName ("c01_production_" ++ s),
             vars := (customers.filter (fun c => (s, c) ∈ lanes)).map (fun c => (s, c)),
             sense := Sense.le, rhs := cap } :: l)

/-- Constraint family 2 of `main.py`: for each customer `c`, the sum
of `vQuantityExchanged[s, c]` over sources `s` with `(s, c)` an
admitted pair must reach `pCustomerDemand[c]`. -/
def buildDemandConstraints (dem : List (String × Rat)) (sources : List String)
    (lanes : List Lane) : List String → Option (List LpConstraint)
  | [] => some []
  | c :: rest =>
    match dictLookup dem c with
    | none => none
    | some need =>
      match buildDemandConstraints dem sources lanes rest with
      | none => none
      | some l =>
        some
          ({ name := sanitizeName ("c02_demand_" ++ c),
             vars := (sources.filter (fun s => (s, c) ∈ lanes)).map (fun s => (s, c)),
             sense := Sense.ge, rhs := need } :: l)

/-- Constraint family 3 of `main.py`: for each pair of the nested
loops, `if (s, c) in sSources_Customers and pFixedTransportation[s, c]`
adds the equality constraint; note that for an admitted pair the
lookup `pFixedTransportation[s, c]` is evaluated unconditionally, so a
missing key raises `KeyError` (`none`). -/
def buildFixedConstraints (fixed : List (Lane × Rat)) (lanes : List Lane) :
    List Lane → Option (List LpConstraint)
  | [] => some []
  | p :: rest =>
    if p ∈ lanes then
      match dictLookup fixed p with
      | none => none
      | some f =>
        if f ≠ 0 then
          match buildFixedConstraints fixed lanes rest with
          | none => none
          | some l =>
            some
              ({ name := sanitizeName ("c03_fixed_" ++ p.1 ++ "_" ++ p.2),
                 vars := [p], sense := Sense.eq, rhs := f } :: l)
        else buildFixedConstraints fixed lanes rest
    else buildFixedConstraints fixed lanes rest

/-- `LpProblem.addConstraint`: the constraints of a PuLP problem form
a dictionary keyed by the (sanitized) constraint name, so adding a
constraint whose name is already present silently replaces the
earlier constraint in place, while a fresh name is appended. -/
def addConstraint (cs : List LpConstraint) (con : LpConstraint) : List LpConstraint :=
  if cs.any (fun c => c.name = con.name) then
    cs.map (fun c => if c.name = con.name then con else c)
  else cs ++ [con]

/-- The model-building part of `solve_problem_using_pulp` (lines
38-81 of `main.py`): decision variables over the admitted pairs,
the minimization objective, and the three constraint families added
in insertion order through the name-keyed constraint dictionary. -/
def buildModel (d : InputData) : Option LpModel := do
  let lanes := sSources_Customers d
  let keys := (pairsLoop d).filter (fun p => p ∈ lanes)
  let objective ← buildObjective d.pTransportationCosts keys
  let prodCons ← buildProductionConstraints d.pSourceProduction d.sCustomers lanes d.sSources
  let demCons ← buildDemandConstraints d.pCustomerDemand d.sSources lanes d.sCustomers
  let fixCons ← buildFixedConstraints d.pFixedTransportation lanes (pairsLoop d)
  pure
    { sense := ObjSense.minimize,
      vars := keys.map (fun p =>
        { key := p, name := varName p.1 p.2,
          lowBound := some 0, upBound := none, cat := VarCat.continuous }),
      objective := objective,
      constraints := (prodCons ++ demCons ++ fixCons).foldl addConstraint [] }

/-- Value of a list of linear terms under an assignment of the
decision variables. -/
def evalLinear (terms : List (Rat × Lane)) (x : Lane → Rat) : Rat :=
  (terms.map (fun t => t.1 * x t.2)).sum

/-- Direction of an interpretation sentence: the three mutually
exclusive wordings printed by the `print_conclusions_*` functions. -/
inductive Direction where
  | reducedBy (amt : Rat)
  | increasedBy (amt : Rat)
  | unchanged
  deriving DecidableEq

/-- The sentence printed for a binding constraint: its direction, the
branch taken (`atSource = true` is the "additional ton available in"
wording of the `location in sources` branch, `false` the
"additional ton supply at" wording), and the parsed location. -/
structure ConstraintStatement where
  direction : Direction
  atSource : Bool
  location : String
  deriving DecidableEq

/-- The sentence printed for a zero-valued variable: its direction and
the two location codes parsed from the variable name. -/
structure VariableStatement where
  direction : Direction
  source : String
  customer : String
  deriving DecidableEq

/-- Outcome of one call of the constraint interpreter: a raised
exception (`ValueError` from `int()` on a malformed name), silence
(no branch taken), or a printed statement. -/
inductive ConstraintInterp where
  | err
  | silent
  | stmt (st : ConstraintStatement)
  deriving DecidableEq

/-- Outcome of one call of the variable interpreter: a raised
`IndexError` (fewer than two quoted codes in the name) or a printed
statement. -/
inductive VariableInterp where
  | err
  | stmt (st : VariableStatement)
  deriving DecidableEq

/-- Whether a constraint-interpreter call printed a statement. -/
def ConstraintInterp.emits : ConstraintInterp → Bool
  | .stmt _ => true
  | _ => false

/-- Whether a variable-interpreter call printed a statement. -/
def VariableInterp.emits : VariableInterp → Bool
  | .stmt _ => true
  | _ => false

/-- `int(str(constraint_name)[2:3])` of `main.py`: the character at
index 2 read as a decimal digit; `none` models the `ValueError` raised
when the slice is empty or not a digit. -/
def constraintNumber (name : String) : Option Nat :=
  match name.data.drop 2 with
  | ch :: _ => if ch.isDigit then some (ch.toNat - 48) else none
  | [] => none

/-- `str(constraint_name)[-3:]` of `main.py`: the last three
characters (or the whole string when shorter). -/
def lastThree (name : String) : String :=
  String.mk ((name.data.reverse.take 3).reverse)

/-- Python `abs` on a rational value. -/
def ratAbs (x : Rat) : Rat :=
  if x < 0 then -x else x

/-- The common sign analysis of both interpreters: strictly negative
dual values print "would be reduced by" the absolute value, strictly
positive ones "would be increased in" the value, zero prints the
"would remain equal" sentence. -/
def directionOf (x : Rat) : Direction :=
  if x < 0 then Direction.reducedBy (ratAbs x)
  else if 0 < x then Direction.increasedBy x
  else Direction.unchanged

/-- `print_conclusions_constraints_sensibility_analysis` of
`main.py`, as a pure function from the constraint name, its shadow
price and the source list to what the call does. -/
def print_conclusions_constraints_sensibility_analysis
    (constraint_name : String) (shadow_price : Rat) (sources : List String) :
    ConstraintInterp :=
  match constraintNumber constraint_name with
  | none => ConstraintInterp.err
  | some constraint_number =>
    let location := lastThree constraint_name
    if constraint_number ≤ 2 ∧ location ∈ sources then
      ConstraintInterp.stmt
        { direction := directionOf shadow_price, atSource := true, location := location }
    else if constraint_number ≤ 2 then
      ConstraintInterp.stmt
        { direction := directionOf shadow_price, atSource := false, location := location }
    else ConstraintInterp.silent

/-- The scan of `re.findall(r"(?<=[']).{3}(?=['])", name)`: `prev` is
the character just before the scan position, the list holds the
characters from the scan position on.  A match needs a quote just
before the position, three characters that are not newlines (the
dot of `re` does not match a newline), and a quote just after them;
scanning resumes at the position of that closing quote. -/
def findQuotedAux : Char → List Char → List String
  | prev, c1 :: c2 :: c3 :: c4 :: rest =>
    if prev = quoteChar ∧ c1 ≠ '\n' ∧ c2 ≠ '\n' ∧ c3 ≠ '\n' ∧ c4 = quoteChar then
      String.mk [c1, c2, c3] :: findQuotedAux c3 (c4 :: rest)
    else
      findQuotedAux c1 (c2 :: c3 :: c4 :: rest)
  | _, _ => []

/-- `re.findall(r"(?<=[']).{3}(?=['])", name)` of `main.py`.  The
first position of the string has no preceding character, so the scan
proper starts at the second position. -/
def findQuoted (name : String) : List String :=
  match name.data with
  | [] => []
  | ch :: rest => findQuotedAux ch rest

/-- `print_conclusions_variables_sensibility_analysis` of `main.py`,
as a pure function from the variable name and its reduced cost to
what the call does. -/
def print_conclusions_variables_sensibility_analysis
    (variable_name : String) (reduced_cost : Rat) : VariableInterp :=
  match findQuoted variable_name with
  | s :: c :: _ =>
    VariableInterp.stmt
      { direction := directionOf reduced_cost, source := s, customer := c }
  | _ => VariableInterp.err

/-- The closed set of PuLP solver statuses. -/
inductive Status where
  | Optimal
  | Infeasible
  | Unbounded
  | NotSolved
  | Undefined
  deriving DecidableEq

/-- Post-solve data of one constraint: its name, slack and shadow
price (`c.slack`, `c.pi`). -/
structure ConstraintResult where
  name : String
  slack : Rat
  pi : Rat
  deriving DecidableEq

/-- Post-solve data of one variable: its name, optimal value and
reduced cost (`v.name`, `v.varValue`, `v.dj`). -/
structure VariableResult where
  name : String
  varValue : Rat
  dj : Rat
  deriving DecidableEq

/-- What the opaque solver hands back for one solve: the status, the
objective value, the per-lane quantities, and the per-constraint and
per-variable sensitivity data. -/
structure SolveResult where
  status : Status
  objective : Rat
  quantities : List (Lane × Rat)
  constraints : List ConstraintResult
  variableResults : List VariableResult
  deriving DecidableEq

/-- Everything the result-printing section emits, in order. -/
structure Report where
  status : Status
  totalCost : Rat
  quantityTable : List (Lane × Rat)
  constraintTable : List (String × Rat × Rat)
  constraintConclusions : List ConstraintInterp
  variableTable : List (String × Rat × Rat)
  variableConclusions : List VariableInterp
  deriving DecidableEq

/-- The result-printing section of `solve_problem_using_pulp` (lines
102-151 of `main.py`): every block runs unconditionally; the
conclusion blocks call the interpreters on the rows with slack zero,
respectively value zero. -/
def pipelineReport (sr : SolveResult) (sSources : List String) : Report :=
  { status := sr.status,
    totalCost := sr.objective,
    quantityTable := sr.quantities.filter (fun q => 0 < q.2),
    constraintTable := sr.constraints.map (fun c => (c.name, c.slack, c.pi)),
    constraintConclusions :=
      (sr.constraints.filter (fun c => c.slack = 0)).map
        (fun c => print_conclusions_constraints_sensibility_analysis c.name c.pi sSources),
    variableTable := sr.variableResults.map (fun v => (v.name, v.varValue, v.dj)),
    variableConclusions :=
      (sr.variableResults.filter (fun v => v.varValue = 0)).map
        (fun v => print_conclusions_variables_sensibility_analysis v.name v.dj) }

/-- The family-1 constraint generated for source `s`. -/
def mkProd01 (prod : List (String × Rat)) (customers : List String) (lanes : List Lane)
    (s : String) : LpConstraint :=
  { name := sanitizeName ("c01_production_" ++ s),
    vars := (customers.filter (fun c => (s, c) ∈ lanes)).map (fun c => (s, c)),
    sense := Sense.le, rhs := (dictLookup prod s).getD 0 }

/-- The family-2 constraint generated for customer `c`. -/
def mkDem02 (dem : List (String × Rat)) (sources : List String) (lanes : List Lane)
    (c : String) : LpConstraint :=
  { name := sanitizeName ("c02_demand_" ++ c),
    vars := (sources.filter (fun s => (s, c) ∈ lanes)).map (fun s => (s, c)),
    sense := Sense.ge, rhs := (dictLookup dem c).getD 0 }

/-- The family-3 constraint generated for lane `p`. -/
def mkFix03 (fixed : List (Lane × Rat)) (p : Lane) : LpConstraint :=
  { name := sanitizeName ("c03_fixed_" ++ p.1 ++ "_" ++ p.2),
    vars := [p], sense := Sense.eq, rhs := (dictLookup fixed p).getD 0 }

/-- A small concrete problem instance in the shape of the
repository's example data: two sources, three customers, five lanes,
and one mandatory (non-zero fixed) lane. -/
def dataBase : InputData :=
  { sSources := ["Gou", "Arn"],
    sCustomers := ["Ams", "Ber", "Lon"],
    pSourceProduction := [("Gou", 10), ("Arn", 5)],
    pCustomerDemand := [("Ams", 4), ("Ber", 3), ("Lon", 8)],
    pTransportationCosts := [(("Gou", "Ams"), 1), (("Gou", "Ber"), 9/2), (("Gou", "Lon"), 3),
      (("Arn", "Ams"), 2), (("Arn", "Ber"), 27/10)],
    pFixedTransportation := [(("Gou", "Ams"), 0), (("Gou", "Ber"), 0), (("Gou", "Lon"), 0),
      (("Arn", "Ams"), 1), (("Arn", "Ber"), 0)] }

/-- The same instance with an empty fixed-flow table: every lane of
the cost table is then absent from `pFixedTransportation`. -/
def dataNoFixed : InputData :=
  { dataBase with pFixedTransportation := [] }

/-- A solve outcome with a non-Optimal status whose sensitivity data
nevertheless contains a binding constraint and a zero-valued
variable. -/
def srInfeasible : SolveResult :=
  { status := Status.Infeasible, objective := 17,
    quantities := [(("Gou", "Ams"), 4)],
    constraints := [{ name := "c01_production_Gou", slack := 0, pi := -2 }],
    variableResults := [{ name := varName "Gou" "Ams", varValue := 0, dj := 3/5 }] }

/-- A solve outcome whose only constraint is a binding family-3
(fixed-flow) constraint. -/
def srFixedBinding : SolveResult :=
  { status := Status.Optimal, objective := 0, quantities := [],
    constraints := [{ name := "c03_fixed_Gou_Ams", slack := 0, pi := 5 }],
    variableResults := [] }

/-- A solve outcome with binding and non-binding constraints and with
zero- and non-zero-valued variables. -/
def srMixed : SolveResult :=
  { status := Status.Optimal, objective := 40,
    quantities := [(("Gou", "Lon"), 8)],
    constraints := [{ name := "c01_production_Gou", slack := 0, pi := -2 },
      { name := "c02_demand_Lon", slack := 2, pi := 0 }],
    variableResults := [{ name := varName "Arn" "Ams", varValue := 0, dj := 3 },
      { name := varName "Gou" "Lon", varValue := 8, dj := 0 }] }

/-- Every constraint of the final dictionary is one of the added
constraints or was in the dictionary before. -/
theorem mem_foldl_addConstraint :
    ∀ (l acc : List LpConstraint) (con : LpConstraint),
      con ∈ l.foldl addConstraint acc → con ∈ acc ∨ con ∈ l := by
  intro l
  induction l with
  | nil =>
    intro acc con h
    exact Or.inl h
  | cons x rest ih =>
    intro acc con h
    rw [List.foldl_cons] at h
    rcases ih _ con h with hacc | hrest
    · unfold addConstraint at hacc
      by_cases hx : acc.any (fun c => c.name = x.name) = true
      · rw [if_pos hx] at hacc
        obtain ⟨c, hc, hceq⟩ := List.mem_map.mp hacc
        by_cases hcn : c.name = x.name
        · rw [if_pos hcn] at hceq
          right
          rw [← hceq]
          exact List.mem_cons_self x rest
        · rw [if_neg hcn] at hceq
          left
          rw [← hceq]
          exact hc
      · rw [if_neg hx] at hacc
        rcases List.mem_append.mp hacc with h1 | h2
        · exact Or.inl h1
        · right
          rw [List.mem_singleton.mp h2]
          exact List.mem_cons_self x rest
    · right
      exact List.mem_cons_of_mem x hrest

/-- A key that is bound exactly once in an association list looks up
to its value. -/
theorem dictLookup_mem {α : Type} [DecidableEq α] {m : List (α × Rat)}
    (hnd : (m.map (·.1)).Nodup) {e : α × Rat} (he : e ∈ m) :
    dictLookup m e.1 = some e.2 := by
  induction m with
  | nil => cases he
  | cons a rest ih =>
    simp only [List.map_cons, List.nodup_cons] at hnd
    unfold dictLookup
    rw [List.reverse_cons, List.find?_append]
    rcases List.mem_cons.mp he with rfl | hmem
    · have hnone : rest.reverse.find? (fun x => x.1 = e.1) = none := by
        rw [List.find?_eq_none]
        intro x hx
        simp only [decide_eq_true_eq]
        intro hx1
        exact hnd.1 (by rw [← hx1]; exact List.mem_map_of_mem _ (List.mem_reverse.mp hx))
      simp [hnone]
    · have := ih hnd.2 hmem
      unfold dictLookup at this
      cases hfind : rest.reverse.find? (fun x => x.1 = e.1) with
      | none => rw [hfind] at this; simp at this
      | some x => rw [hfind] at this; simpa using this

/-- Family-1 names determine the source. -/
theorem name01_inj {a b : String} (h : "c01_production_" ++ a = "c01_production_" ++ b) :
    a = b := by
  have hd := congrArg String.data h
  rw [String.data_append, String.data_append] at hd
  exact String.ext (List.append_cancel_left hd)

/-- Family-2 names determine the customer. -/
theorem name02_inj {a b : String} (h : "c02_demand_" ++ a = "c02_demand_" ++ b) :
    a = b := by
  have hd := congrArg String.data h
  rw [String.data_append, String.data_append] at hd
  exact String.ext (List.append_cancel_left hd)

/-- Membership in the nested-loop pair list. -/
theorem mem_pairsLoop {d : InputData} {p : Lane} :
    p ∈ pairsLoop d ↔ p.1 ∈ d.sSources ∧ p.2 ∈ d.sCustomers := by
  obtain ⟨s, c⟩ := p
  simp only [pairsLoop, List.mem_flatMap, List.mem_map, Prod.mk.injEq]
  constructor
  · rintro ⟨s', hs', c', hc', rfl, rfl⟩
    exact ⟨hs', hc'⟩
  · rintro ⟨hs, hc⟩
    exact ⟨s, hs, c, hc, rfl, rfl⟩

/-- The nested-loop pair list has no duplicates when neither location
list has. -/
theorem pairsLoop_nodup {d : InputData} (hs : d.sSources.Nodup) (hc : d.sCustomers.Nodup) :
    (pairsLoop d).Nodup := by
  apply List.nodup_flatMap.mpr
  constructor
  · intro s _
    exact hc.map (fun c c' h => ((Prod.mk.injEq _ _ _ _).mp h).2)
  · apply hs.imp
    intro s s' hne
    intro x hx hx'
    obtain ⟨c, _, rfl⟩ := List.mem_map.mp hx
    obtain ⟨c', _, heq⟩ := List.mem_map.mp hx'
    exact hne (((Prod.mk.injEq _ _ _ _).mp heq).1.symm)

/-- Characterization of a successful family-1 construction. -/
theorem buildProductionConstraints_some {prod : List (String × Rat)}
    {customers : List String} {lanes : List Lane} :
    ∀ {ss : List String} {l : List LpConstraint},
      buildProductionConstraints prod customers lanes ss = some l →
      l = ss.map (mkProd01 prod customers lanes) ∧ ∀ s ∈ ss, (dictLookup prod s).isSome := by
  intro ss
  induction ss with
  | nil =>
    intro l h
    simp only [buildProductionConstraints, Option.some.injEq] at h
    simp [← h]
  | cons s rest ih =>
    intro l h
    rw [buildProductionConstraints] at h
    cases hcap : dictLookup prod s with
    | none => rw [hcap] at h; cases h
    | some cap =>
      rw [hcap] at h
      cases hrest : buildProductionConstraints prod customers lanes rest with
      | none => rw [hrest] at h; cases h
      | some lr =>
        rw [hrest] at h
        cases h
        obtain ⟨hl, hsome⟩ := ih hrest
        subst hl
        constructor
        · simp [mkProd01, hcap]
        · intro x hx
          rcases List.mem_cons.mp hx with rfl | hx'
          · simp [hcap]
          · exact hsome x hx'

/-- Characterization of a successful family-2 construction. -/
theorem buildDemandConstraints_some {dem : List (String × Rat)}
    {sources : List String} {lanes : List Lane} :
    ∀ {cs : List String} {l : List LpConstraint},
      buildDemandConstraints dem sources lanes cs = some l →
      l = cs.map (mkDem02 dem sources lanes) ∧ ∀ c ∈ cs, (dictLookup dem c).isSome := by
  intro cs
  induction cs with
  | nil =>
    intro l h
    simp only [buildDemandConstraints, Option.some.injEq] at h
    simp [← h]
  | cons c rest ih =>
    intro l h
    rw [buildDemandConstraints] at h
    cases hneed : dictLookup dem c with
    | none => rw [hneed] at h; cases h
    | some need =>
      rw [hneed] at h
      cases hrest : buildDemandConstraints dem sources lanes rest with
      | none => rw [hrest] at h; cases h
      | some lr =>
        rw [hrest] at h
        cases h
        obtain ⟨hl, hsome⟩ := ih hrest
        subst hl
        constructor
        · simp [mkDem02, hneed]
        · intro x hx
          rcases List.mem_cons.mp hx with rfl | hx'
          · simp [hneed]
          · exact hsome x hx'

/-- Characterization of a successful family-3 construction: one
equality constraint per loop pair that is an admitted lane with a
non-zero fixed value, and every admitted loop pair must have a fixed
entry. -/
theorem buildFixedConstraints_some {fixed : List (Lane × Rat)} {lanes : List Lane} :
    ∀ {ps : List Lane} {l : List LpConstraint},
      buildFixedConstraints fixed lanes ps = some l →
      l = (ps.filter (fun p => p ∈ lanes ∧ (dictLookup fixed p).getD 0 ≠ 0)).map (mkFix03 fixed) ∧
        ∀ p ∈ ps, p ∈ lanes → (dictLookup fixed p).isSome := by
  intro ps
  induction ps with
  | nil =>
    intro l h
    simp only [buildFixedConstraints, Option.some.injEq] at h
    simp [← h]
  | cons p rest ih =>
    intro l h
    rw [buildFixedConstraints] at h
    by_cases hl : p ∈ lanes
    · rw [if_pos hl] at h
      split at h
      · cases h
      · rename_i f hf
        by_cases hf0 : f ≠ 0
        · rw [if_pos hf0] at h
          split at h
          · cases h
          · rename_i lr hrest
            cases h
            obtain ⟨hlr, hsome⟩ := ih hrest
            subst hlr
            constructor
            · rw [List.filter_cons]
              have hc : (decide (p ∈ lanes ∧ (dictLookup fixed p).getD 0 ≠ 0)) = true := by
                simp [hl, hf, hf0]
              simp only [hc, if_pos]
              simp [mkFix03, hf]
            · intro x hx _
              rcases List.mem_cons.mp hx with rfl | hx'
              · simp [hf]
              · exact hsome x hx' (by assumption)
        · rw [if_neg hf0] at h
          push_neg at hf0
          obtain ⟨hlr, hsome⟩ := ih h
          constructor
          · rw [hlr, List.filter_cons]
            have hc : (decide (p ∈ lanes ∧ (dictLookup fixed p).getD 0 ≠ 0)) = false := by
              simp [hf, hf0]
            simp [hc]
          · intro x hx _
            rcases List.mem_cons.mp hx with rfl | hx'
            · simp [hf]
            · exact hsome x hx' (by assumption)
    · rw [if_neg hl] at h
      obtain ⟨hlr, hsome⟩ := ih h
      constructor
      · rw [hlr, List.filter_cons]
        have hc : (decide (p ∈ lanes ∧ (dictLookup fixed p).getD 0 ≠ 0)) = false := by
          simp [hl]
        simp [hc]
      · intro x hx hxl
        rcases List.mem_cons.mp hx with rfl | hx'
        · exact absurd hxl hl
        · exact hsome x hx' hxl

/-- Characterization of a successful objective construction. -/
theorem buildObjective_some {costs : List (Lane × Rat)} :
    ∀ {ks : List Lane} {l : List (Rat × Lane)},
      buildObjective costs ks = some l →
      l = ks.map (fun p => ((dictLookup costs p).getD 0, p)) ∧
        ∀ p ∈ ks, (dictLookup costs p).isSome := by
  intro ks
  induction ks with
  | nil =>
    intro l h
    simp only [buildObjective, Option.some.injEq] at h
    simp [← h]
  | cons p rest ih =>
    intro l h
    rw [buildObjective] at h
    cases hc : dictLookup costs p with
    | none => rw [hc] at h; cases h
    | some cost =>
      rw [hc] at h
      cases hrest : buildObjective costs rest with
      | none => rw [hrest] at h; cases h
      | some lr =>
        rw [hrest] at h
        cases h
        obtain ⟨hl, hsome⟩ := ih hrest
        subst hl
        constructor
        · simp [hc]
        · intro x hx
          rcases List.mem_cons.mp hx with rfl | hx'
          · simp [hc]
          · exact hsome x hx'

/-- Decomposition of a successful model build into its four
construction steps. -/
theorem buildModel_some {d : InputData} {m : LpModel} (h : buildModel d = some m) :
    ∃ objective prodCons demCons fixCons,
      buildObjective d.pTransportationCosts
          ((pairsLoop d).filter (fun p => p ∈ sSources_Customers d)) = some objective ∧
      buildProductionConstraints d.pSourceProduction d.sCustomers (sSources_Customers d)
          d.sSources = some prodCons ∧
      buildDemandConstraints d.pCustomerDemand d.sSources (sSources_Customers d)
          d.sCustomers = some demCons ∧
      buildFixedConstraints d.pFixedTransportation (sSources_Customers d) (pairsLoop d) =
          some fixCons ∧
      m.sense = ObjSense.minimize ∧
      m.vars = ((pairsLoop d).filter (fun p => p ∈ sSources_Customers d)).map (fun p =>
        { key := p, name := varName p.1 p.2, lowBound := some 0, upBound := none,
          cat := VarCat.continuous }) ∧
      m.objective = objective ∧
      m.constraints = (prodCons ++ demCons ++ fixCons).foldl addConstraint [] := by
  unfold buildModel at h
  simp only [bind, Option.bind_eq_some, pure, Option.some.injEq] at h
  obtain ⟨objective, hobj, prodCons, hprod, demCons, hdem, fixCons, hfix, hm⟩ := h
  refine ⟨objective, prodCons, demCons, fixCons, hobj, hprod, hdem, hfix, ?_, ?_, ?_, ?_⟩ <;>
    rw [← hm]



/-- The family-3 loop raises `KeyError` as soon as it reaches an
admitted pair without a fixed-flow entry. -/
theorem buildFixedConstraints_none {fixed : List (Lane × Rat)} {lanes : List Lane} {p : Lane}
    (hpl : p ∈ lanes) (hnone : dictLookup fixed p = none) :
    ∀ {ps : List Lane}, p ∈ ps → buildFixedConstraints fixed lanes ps = none := by
  intro ps
  induction ps with
  | nil => intro hmem; cases hmem
  | cons q rest ih =>
    intro hmem
    rw [buildFixedConstraints]
    rcases List.mem_cons.mp hmem with rfl | hmem'
    · rw [if_pos hpl, hnone]
    · by_cases hq : q ∈ lanes
      · rw [if_pos hq]
        cases hf : dictLookup fixed q with
        | none => rfl
        | some f =>
          dsimp only
          by_cases hf0 : f ≠ 0
          · rw [if_pos hf0, ih hmem']
          · rw [if_neg hf0]
            exact ih hmem'
      · rw [if_neg hq]
        exact ih hmem'

/-- A failing family-3 loop makes the whole build fail. -/
theorem buildModel_none_of_fixed_none {d : InputData}
    (h : buildFixedConstraints d.pFixedTransportation (sSources_Customers d) (pairsLoop d) = none) :
    buildModel d = none := by
  unfold buildModel
  cases hobj : buildObjective d.pTransportationCosts
      ((pairsLoop d).filter (fun p => p ∈ sSources_Customers d)) with
  | none => simp [bind, hobj]
  | some obj =>
    cases hprod : buildProductionConstraints d.pSourceProduction d.sCustomers
        (sSources_Customers d) d.sSources with
    | none => simp [bind, hobj, hprod]
    | some pc =>
      cases hdem : buildDemandConstraints d.pCustomerDemand d.sSources
          (sSources_Customers d) d.sCustomers with
      | none => simp [bind, hobj, hprod, hdem]
      | some dc => simp [bind, hobj, hprod, hdem, h]

/-- The admitted loop pairs are a permutation of the cost-table
lanes when the inputs are duplicate-free and each lane's endpoints
are listed. -/
theorem keys_perm_lanes (d : InputData)
    (hsnd : d.sSources.Nodup) (hcnd : d.sCustomers.Nodup)
    (hknd : (d.pTransportationCosts.map (·.1)).Nodup)
    (hsub : ∀ p ∈ sSources_Customers d, p.1 ∈ d.sSources ∧ p.2 ∈ d.sCustomers) :
    ((pairsLoop d).filter (fun p => p ∈ sSources_Customers d)).Perm (sSources_Customers d) := by
  have h1 : ((pairsLoop d).filter (fun p => p ∈ sSources_Customers d)).Nodup :=
    (pairsLoop_nodup hsnd hcnd).filter _
  have h2 : (sSources_Customers d).Nodup := hknd
  rw [List.perm_ext_iff_of_nodup h1 h2]
  intro p
  rw [List.mem_filter]
  constructor
  · rintro ⟨-, hp⟩
    simpa using hp
  · intro hp
    exact ⟨mem_pairsLoop.mpr (hsub p hp), by simpa using hp⟩

/-- Claim C2: the built model minimizes; its objective terms are a
permutation of the cost table with each entry contributing its cost
times its lane's variable, so the objective value under any
assignment is the sum over exactly the cost-table lanes of cost times
quantity; and every decision variable is continuous with lower bound
zero and no upper bound. -/
theorem C2_objective (d : InputData) (m : LpModel) (hm : buildModel d = some m)
    (hsnd : d.sSources.Nodup) (hcnd : d.sCustomers.Nodup)
    (hknd : (d.pTransportationCosts.map (·.1)).Nodup)
    (hsub : ∀ p ∈ sSources_Customers d, p.1 ∈ d.sSources ∧ p.2 ∈ d.sCustomers) :
    m.sense = ObjSense.minimize ∧
    (∀ v ∈ m.vars, v.cat = VarCat.continuous ∧ v.lowBound = some 0 ∧ v.upBound = none) ∧
    m.objective.Perm (d.pTransportationCosts.map (fun e => (e.2, e.1))) ∧
    (∀ x : Lane → Rat, evalLinear m.objective x =
      (d.pTransportationCosts.map (fun e => e.2 * x e.1)).sum) := by
  obtain ⟨obj, pc, dc, fc, hobj, hprod, hdem, hfix, hsen, hvars, hobjm, hcons⟩ :=
    buildModel_some hm
  obtain ⟨hol, -⟩ := buildObjective_some hobj
  have hperm : m.objective.Perm (d.pTransportationCosts.map (fun e => (e.2, e.1))) := by
    rw [hobjm, hol]
    have hkp := (keys_perm_lanes d hsnd hcnd hknd hsub).map
      (fun p => ((dictLookup d.pTransportationCosts p).getD 0, p))
    have heq : (sSources_Customers d).map
        (fun p => ((dictLookup d.pTransportationCosts p).getD 0, p)) =
        d.pTransportationCosts.map (fun e => (e.2, e.1)) := by
      unfold sSources_Customers
      rw [List.map_map]
      apply List.map_congr_left
      intro e he
      have := dictLookup_mem hknd he
      simp [this]
    rw [heq] at hkp
    exact hkp
  refine ⟨hsen, ?_, hperm, ?_⟩
  · intro v hv
    rw [hvars] at hv
    obtain ⟨p, -, rfl⟩ := List.mem_map.mp hv
    exact ⟨rfl, rfl, rfl⟩
  · intro x
    unfold evalLinear
    rw [(hperm.map (fun t => t.1 * x t.2)).sum_eq, List.map_map]
    rfl

/-- Claim C3: a pair of the location lists that is missing from the
cost table gets no decision variable, no objective term, and no
membership in any constraint sum; and the key set of the decision
variables is exactly the lane set of the cost table. -/
theorem C3_lane_set (d : InputData) (m : LpModel) (hm : buildModel d = some m)
    (hsub : ∀ p ∈ sSources_Customers d, p.1 ∈ d.sSources ∧ p.2 ∈ d.sCustomers) :
    (∀ s ∈ d.sSources, ∀ c ∈ d.sCustomers, (s, c) ∉ sSources_Customers d →
      ((s, c) ∉ m.vars.map (·.key) ∧
       (∀ t ∈ m.objective, t.2 ≠ (s, c)) ∧
       (∀ con ∈ m.constraints, (s, c) ∉ con.vars))) ∧
    (∀ p : Lane, p ∈ m.vars.map (·.key) ↔ p ∈ sSources_Customers d) := by
  obtain ⟨obj, pc, dc, fc, hobj, hprod, hdem, hfix, hsen, hvars, hobjm, hcons⟩ :=
    buildModel_some hm
  obtain ⟨hol, -⟩ := buildObjective_some hobj
  obtain ⟨hpc, -⟩ := buildProductionConstraints_some hprod
  obtain ⟨hdc, -⟩ := buildDemandConstraints_some hdem
  obtain ⟨hfc, -⟩ := buildFixedConstraints_some hfix
  have hkeys : m.vars.map (·.key) = (pairsLoop d).filter (fun p => p ∈ sSources_Customers d) := by
    rw [hvars, List.map_map]
    exact List.map_id _
  constructor
  · intro s hs c hc hnot
    refine ⟨?_, ?_, ?_⟩
    · rw [hkeys]
      intro hmem
      exact hnot (by simpa using (List.mem_filter.mp hmem).2)
    · intro t ht
      rw [hobjm, hol] at ht
      obtain ⟨p, hp, rfl⟩ := List.mem_map.mp ht
      intro hpc'
      dsimp at hpc'
      rw [hpc'] at hp
      exact hnot (by simpa using (List.mem_filter.mp hp).2)
    · intro con hcon
      rw [hcons] at hcon
      rcases mem_foldl_addConstraint _ _ _ hcon with hnil | hall
      · cases hnil
      rcases List.mem_append.mp hall with hcon' | hfix'
      · rcases List.mem_append.mp hcon' with hp | hd
        · subst hpc
          obtain ⟨s', -, rfl⟩ := List.mem_map.mp hp
          intro hmem
          simp only [mkProd01] at hmem
          obtain ⟨c', hc', heq⟩ := List.mem_map.mp hmem
          rw [List.mem_filter] at hc'
          rw [heq] at hc'
          exact hnot (by simpa using hc'.2)
        · subst hdc
          obtain ⟨c', -, rfl⟩ := List.mem_map.mp hd
          intro hmem
          simp only [mkDem02] at hmem
          obtain ⟨s', hs', heq⟩ := List.mem_map.mp hmem
          rw [List.mem_filter] at hs'
          rw [heq] at hs'
          exact hnot (by simpa using hs'.2)
      · subst hfc
        obtain ⟨p, hp, rfl⟩ := List.mem_map.mp hfix'
        intro hmem
        simp only [mkFix03, List.mem_singleton] at hmem
        rw [List.mem_filter] at hp
        have hx := hp.2
        simp only [decide_eq_true_eq] at hx
        rw [← hmem] at hx
        exact hnot hx.1
  · intro p
    rw [hkeys, List.mem_filter]
    constructor
    · rintro ⟨-, hp⟩
      simpa using hp
    · intro hp
      exact ⟨mem_pairsLoop.mpr (hsub p hp), by simpa using hp⟩

/-- Claim C2 (witness): on the concrete instance, the objective
evaluated at the all-ones assignment is the sum of all transportation
costs. -/
theorem C2_objective_witness :
    (buildModel dataBase).map (fun m => evalLinear m.objective (fun _ => 1)) =
      some ((dataBase.pTransportationCosts.map (fun e => e.2 * (fun _ : Lane => (1 : Rat)) e.1)).sum) := by
  cases hm : buildModel dataBase with
  | none => exact absurd hm (by decide)
  | some m =>
    have h := (C2_objective dataBase m hm (by decide) (by decide) (by decide)
      (by decide)).2.2.2 (fun _ => 1)
    exact congrArg some h

/-- Claim C3 (witness): on the concrete instance, a missing lane has
no decision variable and a cost-table lane has one. -/
theorem C3_lane_set_witness :
    (buildModel dataBase).map (fun m => decide (("Arn", "Lon") ∈ m.vars.map (·.key))) =
      some false ∧
    (buildModel dataBase).map (fun m => decide (("Gou", "Ams") ∈ m.vars.map (·.key))) =
      some true := by
  cases hm : buildModel dataBase with
  | none => exact absurd hm (by decide)
  | some m =>
    obtain ⟨h1, h2⟩ := C3_lane_set dataBase m hm (by decide)
    constructor
    · exact congrArg some (decide_eq_false
        (h1 "Arn" (by decide) "Lon" (by decide) (by decide)).1)
    · exact congrArg some (decide_eq_true ((h2 ("Gou", "Ams")).mpr (by decide)))

/-- Claim C4 (amended): the result-printing pipeline does not gate on
the solver status: it reports the status, and every other part of the
report (totals, tables, and both conclusion lists) is the same for any
two statuses. -/
theorem C4_no_status_gating (sr : SolveResult) (st st' : Status) (srcs : List String) :
    (pipelineReport { sr with status := st } srcs).status = st ∧
    ((pipelineReport { sr with status := st } srcs).totalCost =
        (pipelineReport { sr with status := st' } srcs).totalCost ∧
      (pipelineReport { sr with status := st } srcs).quantityTable =
        (pipelineReport { sr with status := st' } srcs).quantityTable ∧
      (pipelineReport { sr with status := st } srcs).constraintTable =
        (pipelineReport { sr with status := st' } srcs).constraintTable ∧
      (pipelineReport { sr with status := st } srcs).constraintConclusions =
        (pipelineReport { sr with status := st' } srcs).constraintConclusions ∧
      (pipelineReport { sr with status := st } srcs).variableTable =
        (pipelineReport { sr with status := st' } srcs).variableTable ∧
      (pipelineReport { sr with status := st } srcs).variableConclusions =
        (pipelineReport { sr with status := st' } srcs).variableConclusions) :=
  ⟨rfl, rfl, rfl, rfl, rfl, rfl, rfl⟩

/-- Claim C4 (counterexample): a solve result with status Infeasible
still produces non-empty sensitivity tables and interpretation
statements, contradicting the claim that only the status is reported
and no tables or interpretation are produced. -/
theorem C4_counterexample :
    srInfeasible.status ≠ Status.Optimal ∧
    (pipelineReport srInfeasible ["Gou"]).constraintTable ≠ [] ∧
    (pipelineReport srInfeasible ["Gou"]).variableTable ≠ [] ∧
    ((pipelineReport srInfeasible ["Gou"]).constraintConclusions.any
      ConstraintInterp.emits) = true ∧
    ((pipelineReport srInfeasible ["Gou"]).variableConclusions.any
      VariableInterp.emits) = true := by decide

/-- Claim C5 (amended): for a lane of the cost table whose fixed-flow
entry is present with value zero, the builder creates no family-3
constraint for it; but a lane of the cost table that is absent from
the fixed-flow table makes the whole build fail with a KeyError
instead of being treated like zero. -/
theorem C5_fixed_zero_or_absent (d : InputData) (s c : String)
    (hs : s ∈ d.sSources) (hc : c ∈ d.sCustomers)
    (hlane : (s, c) ∈ sSources_Customers d) :
    (∀ m, buildModel d = some m →
      dictLookup d.pFixedTransportation (s, c) = some 0 →
      ∀ con ∈ m.constraints, ¬(con.sense = Sense.eq ∧ con.vars = [(s, c)])) ∧
    (dictLookup d.pFixedTransportation (s, c) = none → buildModel d = none) := by
  constructor
  · intro m hm hzero con hcon
    obtain ⟨obj, pc, dc, fc, hobj, hprod, hdem, hfix, hsen, hvars, hobjm, hcons⟩ :=
      buildModel_some hm
    obtain ⟨hpc, -⟩ := buildProductionConstraints_some hprod
    obtain ⟨hdc, -⟩ := buildDemandConstraints_some hdem
    obtain ⟨hfc, -⟩ := buildFixedConstraints_some hfix
    subst hpc hdc hfc
    rw [hcons] at hcon
    rcases mem_foldl_addConstraint _ _ _ hcon with hnil | hall
    · cases hnil
    rintro ⟨hsense, hvarseq⟩
    rcases List.mem_append.mp hall with hcon' | hfix'
    · rcases List.mem_append.mp hcon' with hp | hd
      · obtain ⟨s', -, rfl⟩ := List.mem_map.mp hp
        simp [mkProd01] at hsense
      · obtain ⟨c', -, rfl⟩ := List.mem_map.mp hd
        simp [mkDem02] at hsense
    · obtain ⟨p, hp, rfl⟩ := List.mem_map.mp hfix'
      have hpsc : p = (s, c) := by
        simpa [mkFix03] using hvarseq
      rw [List.mem_filter] at hp
      have hpred := hp.2
      simp only [decide_eq_true_eq] at hpred
      rw [hpsc, hzero] at hpred
      exact hpred.2 rfl
  · intro hnone
    exact buildModel_none_of_fixed_none
      (buildFixedConstraints_none hlane hnone (mem_pairsLoop.mpr ⟨hs, hc⟩))

/-- Claim C5 (counterexample): on an instance whose fixed-flow table
is empty, constraint construction does not complete; it raises a
KeyError (modelled as none), contradicting the claim that an absent
entry behaves like a zero entry. -/
theorem C5_counterexample : buildModel dataNoFixed = none := by decide

/-- Claim C5 (witness): on the concrete instances, a present zero
entry yields no family-3 constraint, and an absent entry makes the
build fail. -/
theorem C5_witness :
    (buildModel dataBase).map (fun m =>
      decide (∀ con ∈ m.constraints,
        ¬(con.sense = Sense.eq ∧ con.vars = [("Gou", "Ams")]))) = some true ∧
    buildModel dataNoFixed = none := by
  constructor
  · cases hm : buildModel dataBase with
    | none => exact absurd hm (by decide)
    | some m =>
      exact congrArg some (decide_eq_true
        ((C5_fixed_zero_or_absent dataBase "Gou" "Ams" (by decide) (by decide)
          (by decide)).1 m hm (by decide)))
  · exact (C5_fixed_zero_or_absent dataNoFixed "Gou" "Ams" (by decide) (by decide)
      (by decide)).2 (by decide)

/-- Claim C6 (amended): the interpreters are invoked exactly on the
constraint rows with slack zero and the variable rows with value zero;
an invoked constraint row yields a statement exactly when its parsed
family ordinal is at most 2, and an invoked variable row with a
well-formed name always yields a statement. -/
theorem C6_interpretation_trigger (sr : SolveResult) (srcs : List String)
    (hvnames : ∀ v ∈ sr.variableResults, 2 ≤ (findQuoted v.name).length) :
    ((pipelineReport sr srcs).constraintConclusions =
      (sr.constraints.filter (fun c => c.slack = 0)).map
        (fun c => print_conclusions_constraints_sensibility_analysis c.name c.pi srcs)) ∧
    (∀ c ∈ sr.constraints, ∀ n, constraintNumber c.name = some n →
      ((print_conclusions_constraints_sensibility_analysis c.name c.pi srcs).emits = true ↔
        n ≤ 2)) ∧
    ((pipelineReport sr srcs).variableConclusions =
      (sr.variableResults.filter (fun v => v.varValue = 0)).map
        (fun v => print_conclusions_variables_sensibility_analysis v.name v.dj)) ∧
    (∀ v ∈ sr.variableResults,
      (print_conclusions_variables_sensibility_analysis v.name v.dj).emits = true) := by
  refine ⟨rfl, ?_, rfl, ?_⟩
  · intro c _ n hn
    unfold print_conclusions_constraints_sensibility_analysis
    rw [hn]
    dsimp only
    by_cases h2 : n ≤ 2
    · by_cases hloc : lastThree c.name ∈ srcs
      · rw [if_pos ⟨h2, hloc⟩]
        simp [ConstraintInterp.emits, h2]
      · rw [if_neg (fun hh => hloc hh.2), if_pos h2]
        simp [ConstraintInterp.emits, h2]
    · rw [if_neg (fun hh => h2 hh.1), if_neg h2]
      simp [ConstraintInterp.emits, h2]
  · intro v hv
    have hlen := hvnames v hv
    unfold print_conclusions_variables_sensibility_analysis
    cases hq : findQuoted v.name with
    | nil => rw [hq] at hlen; simp at hlen
    | cons a t =>
      cases t with
      | nil => rw [hq] at hlen; simp at hlen
      | cons b t' => rfl

/-- Claim C6 (counterexample): a binding (slack-zero) family-3
constraint produces no statement, contradicting the claimed
equivalence "statement exactly when slack is zero". -/
theorem C6_counterexample :
    (srFixedBinding.constraints.all (fun c => c.slack = 0)) = true ∧
    ((pipelineReport srFixedBinding ["Gou"]).constraintConclusions.any
      ConstraintInterp.emits) = false := by decide

/-- Claim C6 (witness): on a concrete solve result, the conclusion
lists are exactly the interpreter images of the slack-zero and
value-zero rows. -/
theorem C6_witness :
    ((pipelineReport srMixed ["Gou", "Arn"]).constraintConclusions =
      (srMixed.constraints.filter (fun c => c.slack = 0)).map
        (fun c => print_conclusions_constraints_sensibility_analysis c.name c.pi
          ["Gou", "Arn"])) ∧
    ((pipelineReport srMixed ["Gou", "Arn"]).variableConclusions =
      (srMixed.variableResults.filter (fun v => v.varValue = 0)).map
        (fun v => print_conclusions_variables_sensibility_analysis v.name v.dj)) := by
  have h := C6_interpretation_trigger srMixed ["Gou", "Arn"] (by decide)
  exact ⟨h.1, h.2.2.1⟩

/-- Claim C7: whenever either interpreter emits a statement, the
direction of the statement matches the sign of the dual value:
strictly negative gives "reduced by" the absolute value, strictly
positive gives "increased in" the value, and zero gives the
"remain equal" statement. -/
theorem C7_sign_convention (cname : String) (pi : Rat) (srcs : List String)
    (cst : ConstraintStatement) (vname : String) (dj : Rat) (vst : VariableStatement)
    (hc : print_conclusions_constraints_sensibility_analysis cname pi srcs =
      ConstraintInterp.stmt cst)
    (hv : print_conclusions_variables_sensibility_analysis vname dj =
      VariableInterp.stmt vst) :
    ((pi < 0 → cst.direction = Direction.reducedBy |pi|) ∧
     (0 < pi → cst.direction = Direction.increasedBy pi) ∧
     (pi = 0 → cst.direction = Direction.unchanged)) ∧
    ((dj < 0 → vst.direction = Direction.reducedBy |dj|) ∧
     (0 < dj → vst.direction = Direction.increasedBy dj) ∧
     (dj = 0 → vst.direction = Direction.unchanged)) := by
  have hneg : ∀ x : Rat, x < 0 → directionOf x = Direction.reducedBy |x| := by
    intro x hx
    unfold directionOf ratAbs
    rw [if_pos hx, if_pos hx, abs_of_neg hx]
  have hpos : ∀ x : Rat, 0 < x → directionOf x = Direction.increasedBy x := by
    intro x hx
    unfold directionOf
    rw [if_neg (not_lt.mpr hx.le), if_pos hx]
  have hzero : ∀ x : Rat, x = 0 → directionOf x = Direction.unchanged := by
    intro x hx
    subst hx
    unfold directionOf
    rw [if_neg (lt_irrefl 0), if_neg (lt_irrefl 0)]
  have hcd : cst.direction = directionOf pi := by
    unfold print_conclusions_constraints_sensibility_analysis at hc
    cases hn : constraintNumber cname with
    | none => rw [hn] at hc; cases hc
    | some n =>
      rw [hn] at hc
      dsimp only at hc
      by_cases ha : n ≤ 2 ∧ lastThree cname ∈ srcs
      · rw [if_pos ha] at hc
        cases hc
        rfl
      · rw [if_neg ha] at hc
        by_cases hb : n ≤ 2
        · rw [if_pos hb] at hc
          cases hc
          rfl
        · rw [if_neg hb] at hc
          cases hc
  have hvd : vst.direction = directionOf dj := by
    unfold print_conclusions_variables_sensibility_analysis at hv
    split at hv
    · cases hv; rfl
    · cases hv
  exact ⟨⟨fun h => by rw [hcd, hneg pi h], fun h => by rw [hcd, hpos pi h],
      fun h => by rw [hcd, hzero pi h]⟩,
    ⟨fun h => by rw [hvd, hneg dj h], fun h => by rw [hvd, hpos dj h],
      fun h => by rw [hvd, hzero dj h]⟩⟩

/-- Claim C7 (witness): concrete statements produced for a negative
shadow price and a positive reduced cost carry the claimed
directions. -/
theorem C7_witness :
    (⟨Direction.reducedBy 2, true, "Gou"⟩ : ConstraintStatement).direction =
      Direction.reducedBy |(-2 : Rat)| ∧
    (⟨Direction.increasedBy 3, "Arn", "Ams"⟩ : VariableStatement).direction =
      Direction.increasedBy ((3 : Rat)) := by
  have h := C7_sign_convention "c01_production_Gou" ((-2 : Rat)) ["Gou"]
    ⟨Direction.reducedBy 2, true, "Gou"⟩ (varName "Arn" "Ams") ((3 : Rat))
    ⟨Direction.increasedBy 3, "Arn", "Ams"⟩ (by decide) (by decide)
  exact ⟨h.1.1 (by norm_num), h.2.2.1 (by norm_num)⟩

/-- Claim C8: for a constraint name whose family digit is 3, the
interpreter emits nothing, whatever the shadow price and the source
list; and any emitted statement comes from a name whose family digit
is at most 2. -/
theorem C8_family3_silent (cname : String) (pi : Rat) (srcs : List String) :
    (constraintNumber cname = some 3 →
      print_conclusions_constraints_sensibility_analysis cname pi srcs =
        ConstraintInterp.silent) ∧
    (∀ cst, print_conclusions_constraints_sensibility_analysis cname pi srcs =
        ConstraintInterp.stmt cst →
      ∃ n, constraintNumber cname = some n ∧ n ≤ 2) := by
  constructor
  · intro h3
    unfold print_conclusions_constraints_sensibility_analysis
    rw [h3]
    dsimp only
    rw [if_neg (fun hh : (3 : Nat) ≤ 2 ∧ lastThree cname ∈ srcs => absurd hh.1 (by omega)),
      if_neg (by omega : ¬(3 : Nat) ≤ 2)]
  · intro cst h
    unfold print_conclusions_constraints_sensibility_analysis at h
    cases hn : constraintNumber cname with
    | none => rw [hn] at h; cases h
    | some n =>
      rw [hn] at h
      dsimp only at h
      by_cases h2 : n ≤ 2
      · exact ⟨n, rfl, h2⟩
      · rw [if_neg (fun hh => h2 hh.1), if_neg h2] at h
        cases h

/-- Claim C8 (witness): the family-3 name "c03_fixed_Gou_Ams" is
silent even though its trailing code is in the source list and its
shadow price is non-zero. -/
theorem C8_witness :
    constraintNumber "c03_fixed_Gou_Ams" = some 3 ∧
    print_conclusions_constraints_sensibility_analysis "c03_fixed_Gou_Ams" 7
      ["Gou", "Ams"] = ConstraintInterp.silent :=
  ⟨by decide, (C8_family3_silent "c03_fixed_Gou_Ams" 7 ["Gou", "Ams"]).1 (by decide)⟩

/-- Claim C10: for any binding constraint whose family digit is at
most 2, the interpreter picks the source wording ("available in")
exactly when the trailing three-character code is in the source list,
independently of the family digit, so a family-2 constraint whose
location is also a source is narrated as a source statement. -/
theorem C10_branch_by_source_membership (cname : String) (pi : Rat) (srcs : List String)
    (n : Nat) (hn : constraintNumber cname = some n) (h2 : n ≤ 2) :
    print_conclusions_constraints_sensibility_analysis cname pi srcs =
      ConstraintInterp.stmt
        { direction := directionOf pi,
          atSource := decide (lastThree cname ∈ srcs),
          location := lastThree cname } := by
  unfold print_conclusions_constraints_sensibility_analysis
  rw [hn]
  dsimp only
  by_cases hloc : lastThree cname ∈ srcs
  · rw [if_pos ⟨h2, hloc⟩]
    simp [hloc]
  · rw [if_neg (fun hh => hloc hh.2), if_pos h2]
    simp [hloc]

/-- Claim C10 (witness): the family-2 name "c02_demand_Gou" with
"Gou" in the source list is narrated with the source wording. -/
theorem C10_witness :
    print_conclusions_constraints_sensibility_analysis "c02_demand_Gou" 1 ["Gou"] =
      ConstraintInterp.stmt
        { direction := directionOf 1,
          atSource := decide (lastThree "c02_demand_Gou" ∈ ["Gou"]),
          location := lastThree "c02_demand_Gou" } :=
  C10_branch_by_source_membership "c02_demand_Gou" 1 ["Gou"] 2 (by decide) (by decide)

end NetworkFlows
